import Mathlib

/-!
# Verification of the Quest 4 web-crawler core (`quest4-linux-crawling/index.js`)

A shallow embedding of the crawl engine: the URL frontier with
deduplication (`URLQueue`), result aggregation (`CrawlResult`), the
per-page retry loop (`WebCrawler.crawlPage`), the traversal loop
(`WebCrawler.crawl`), CSV serialization (`WebCrawler.saveResults`) and the
signal-driven shutdown handler.

Modelling conventions:
* JavaScript numbers that only ever hold non-negative integers
  (depths, counters, millisecond timestamps, status codes) become `Nat`.
* The platform's WHATWG URL implementation (`new URL(...)`) is an external
  collaborator: queue-level operations are parameterised by the
  `normalize` result (`norm : String → Option String`, `null` = `none`)
  and by hostname extraction (`hostOf`).  For the normalization algorithm
  itself, a parsed URL is modelled as a record of its components with
  strings as lists of characters (see `URLRec`).
* The browser (`page.goto` + extraction) is an environment function
  giving the outcome of each navigation attempt (`AttemptResult`).
* `JSON`-level serialization is modelled only to the extent the spec
  constrains it (the CSV rows and the report skeleton written on
  shutdown).
-/

set_option autoImplicit false

namespace Quest4

/-- One heading extracted from a page: `{ tag, text }`. -/
structure Heading where
  tag : String
  text : String
deriving DecidableEq

/-- The data `extractPageData` pulls out of a loaded document.  `links`
holds the resolved `href` values (the accompanying link text plays no
role in the crawl core: `filterLinks` projects to `href` and only the
serialized report keeps the text). `images` holds the `src` values. -/
structure ExtractData where
  title : String
  headings : List Heading
  links : List String
  images : List String
  tables : List (List (List String))
  textContent : List String
deriving DecidableEq

/-- A successfully crawled page as stored in `result.pages`:
`extractPageData`'s fields plus `url`, `depth`, `timestamp` and the
patched-in `statusCode` and `loadTime` (lines 271-273). -/
structure PageData where
  url : String
  depth : Nat
  timestamp : String
  title : String
  headings : List Heading
  links : List String
  images : List String
  tables : List (List (List String))
  textContent : List String
  statusCode : Nat
  loadTime : Nat
deriving DecidableEq

/-- Builds the stored page record from the extraction result
(`extractPageData` lines 373-378 plus the `statusCode`/`loadTime`
assignments in `crawlPage`). -/
def mkPageData (url : String) (depth : Nat) (timestamp : String)
    (data : ExtractData) (statusCode loadTime : Nat) : PageData :=
  { url := url, depth := depth, timestamp := timestamp,
    title := data.title, headings := data.headings, links := data.links,
    images := data.images, tables := data.tables,
    textContent := data.textContent,
    statusCode := statusCode, loadTime := loadTime }

/-- An entry of `result.errors`: `{ url, error: error.message, timestamp }`
(line 98). -/
structure ErrorRecord where
  url : String
  error : String
  timestamp : String
deriving DecidableEq

/-- The rolling counters of `CrawlResult.stats` (lines 78-85).
`duration` is only defined after `finalize`; `none` models the
JavaScript `undefined`. -/
structure CrawlStats where
  totalPages : Nat
  successfulPages : Nat
  failedPages : Nat
  totalLinks : Nat
  totalImages : Nat
  totalTables : Nat
  duration : Option Nat
deriving DecidableEq

/-- The result aggregate (class `CrawlResult`, lines 72-108).  `endTime`
is `null` (`none`) until `finalize` stamps it. -/
structure CrawlResult where
  pages : List PageData
  errors : List ErrorRecord
  startTime : Nat
  endTime : Option Nat
  stats : CrawlStats
deriving DecidableEq

/-- The `CrawlResult` constructor (lines 73-86): empty lists, all
counters zero, `endTime = null`, `duration` undefined. -/
def CrawlResult.init (startTime : Nat) : CrawlResult :=
  { pages := [], errors := [], startTime := startTime, endTime := none,
    stats := { totalPages := 0, successfulPages := 0, failedPages := 0,
               totalLinks := 0, totalImages := 0, totalTables := 0,
               duration := none } }

/-- `CrawlResult.addPage` (lines 88-95): push the record, bump
`totalPages` and `successfulPages`, accumulate link/image/table counts. -/
def CrawlResult.addPage (r : CrawlResult) (p : PageData) : CrawlResult :=
  { r with
    pages := r.pages ++ [p],
    stats := { r.stats with
      totalPages := r.stats.totalPages + 1,
      successfulPages := r.stats.successfulPages + 1,
      totalLinks := r.stats.totalLinks + p.links.length,
      totalImages := r.stats.totalImages + p.images.length,
      totalTables := r.stats.totalTables + p.tables.length } }

/-- `CrawlResult.addError` (lines 97-101): push an error record, bump
`totalPages` and `failedPages`.  `timestamp` stands for
`new Date().toISOString()`. -/
def CrawlResult.addError (r : CrawlResult) (url msg timestamp : String) :
    CrawlResult :=
  { r with
    errors := r.errors ++ [{ url := url, error := msg, timestamp := timestamp }],
    stats := { r.stats with
      totalPages := r.stats.totalPages + 1,
      failedPages := r.stats.failedPages + 1 } }

/-- `CrawlResult.finalize` (lines 103-107): stamp `endTime = Date.now()`
and compute `stats.duration = endTime - startTime`.  There is no guard
against repeated calls or subsequent mutation. -/
def CrawlResult.finalize (r : CrawlResult) (now : Nat) : CrawlResult :=
  { r with endTime := some now,
           stats := { r.stats with duration := some (now - r.startTime) } }

/-- A frontier work item `{ url: normalized, depth }` (line 125). -/
structure FrontierEntry where
  url : String
  depth : Nat
deriving DecidableEq

/-- The URL frontier (class `URLQueue`, lines 112-156): a FIFO `queue`
of entries and the `visited` set of normalized URLs.  The JavaScript
`Set` is modelled as a list: `add` only inserts after a failed
membership test, so the list stays duplicate-free and its `length` is
the set's `size`. -/
structure URLQueue where
  queue : List FrontierEntry
  visited : List String
  maxPages : Nat
deriving DecidableEq

/-- The `URLQueue` constructor (lines 113-117). -/
def URLQueue.init (maxPages : Nat) : URLQueue :=
  { queue := [], visited := [], maxPages := maxPages }

/-- `URLQueue.add` (lines 119-128), parameterised by the platform
normalization `norm` (`URLQueue.normalize`; `none` models the `null`
returned for a malformed URL).  Returns the updated queue and the
admission flag. -/
def URLQueue.add (norm : String → Option String) (q : URLQueue)
    (url : String) (depth : Nat) : URLQueue × Bool :=
  match norm url with
  | none => (q, false)
  | some normalized =>
    if q.visited.contains normalized then (q, false)
    else if q.maxPages ≤ q.visited.length then (q, false)
    else ({ q with
            queue := q.queue ++ [{ url := normalized, depth := depth }],
            visited := q.visited ++ [normalized] }, true)

/-- `URLQueue.next` (lines 130-132): `queue.shift()` — pop the front. -/
def URLQueue.next (q : URLQueue) : Option FrontierEntry × URLQueue :=
  match q.queue with
  | [] => (none, q)
  | e :: rest => (some e, { q with queue := rest })

/-- `URLQueue.hasMore` (lines 134-136). -/
def URLQueue.hasMore (q : URLQueue) : Bool :=
  decide (q.queue.length > 0)

/-- `URLQueue.size` getter (lines 138-140): `visited.size`. -/
def URLQueue.size (q : URLQueue) : Nat :=
  q.visited.length

/-- The outcome of one `page.goto` navigation attempt, as delivered by
the browser collaborator: either the whole `try` block throws before a
response exists (`thrown`, covering timeouts and transport errors), or
navigation returns with an optional response (Puppeteer's
`response?.status()` — `navigated none` models a `null` response) and
the document whose extraction would succeed. -/
inductive AttemptResult where
  | thrown (msg : String)
  | navigated (response : Option Nat) (data : ExtractData)
deriving DecidableEq

/-- Lines 264-268 of `crawlPage`: `statusCode = response?.status() || 0`
followed by `if (statusCode >= 400) throw new Error(...)`.  A thrown
navigation and a thrown `HTTP <status>` error land in the same `catch`,
so an attempt reduces to `Except`: `.error` is a retryable failure,
`.ok` carries the recorded status code and the extracted data. -/
def attemptOutcome (a : AttemptResult) : Except String (Nat × ExtractData) :=
  match a with
  | .thrown msg => .error msg
  | .navigated response data =>
    let statusCode := response.getD 0
    if 400 ≤ statusCode then .error ("HTTP " ++ toString statusCode)
    else .ok (statusCode, data)

/-- `WebCrawler.filterLinks` (lines 381-395), with the platform hostname
parse abstracted as `hostOf` (`none` = `new URL(href)` throws) and
`baseHost` standing for `new URL(this.baseUrl).hostname`: keep a link
only if its hostname equals the base host or is a subdomain of it. -/
def filterLinks (hostOf : String → Option String) (baseHost : String)
    (links : List String) : List String :=
  links.filter (fun href =>
    match hostOf href with
    | some h => h == baseHost || h.endsWith ("." ++ baseHost)
    | none => false)

/-- The static configuration a `WebCrawler` is constructed with
(lines 161-174 and `config.js`): `maxRetries` is `config.MAX_RETRIES`,
`retryDelay` is `config.RETRY_DELAY`. -/
structure Config where
  baseUrl : String
  maxDepth : Nat
  maxPages : Nat
  maxRetries : Nat
  retryDelay : Nat
deriving DecidableEq

/-- The external collaborators of one run: URL normalization and
hostname parsing (the WHATWG `URL` platform class), the browser
(`attempts url k` is what the `k`-th navigation attempt — zero-based —
of `url` would yield), the measured load time per url and attempt, and
the wall-clock timestamp string. -/
structure CrawlEnv where
  norm : String → Option String
  hostOf : String → Option String
  baseHost : String
  attempts : String → Nat → AttemptResult
  loadTimeOf : String → Nat → Nat
  ts : String

/-- The mutable state the orchestrator threads through the loop: the
frontier and the result aggregate. -/
structure CrawlerSt where
  queue : URLQueue
  result : CrawlResult
deriving DecidableEq

/-- The link-discovery loop of `crawlPage` (lines 278-281): try to admit
every filtered link at the given depth, counting admissions. -/
def addLinksLoop (norm : String → Option String) (q : URLQueue)
    (links : List String) (depth : Nat) : URLQueue × Nat :=
  links.foldl
    (fun acc link =>
      ((URLQueue.add norm acc.1 link depth).1,
       acc.2 + (if (URLQueue.add norm acc.1 link depth).2 then 1 else 0)))
    (q, 0)

/-- The body of a successful navigation attempt of `crawlPage`
(lines 270-287): build the page record, discover and enqueue links when
`depth < maxDepth` (before `addPage`, as in the source), then record the
page. -/
def crawlPageSuccess (cfg : Config) (env : CrawlEnv) (url : String)
    (depth : Nat) (st : CrawlerSt) (statusCode loadTime : Nat)
    (data : ExtractData) : CrawlerSt :=
  let pageData := mkPageData url depth env.ts data statusCode loadTime
  let st1 :=
    if depth < cfg.maxDepth then
      { st with queue :=
          (addLinksLoop env.norm st.queue
            (filterLinks env.hostOf env.baseHost data.links) (depth + 1)).1 }
    else st
  { st1 with result := st1.result.addPage pageData }

/-- The retry loop of `WebCrawler.crawlPage` (lines 234-303), written
with an explicit countdown: `remaining = maxRetries + 1 - retries`, so
the `while (retries <= maxRetries)` guard is `remaining > 0`, and after
a failure the `retries > maxRetries` test (line 291) is `remaining = 1`.
`retries` is kept as a parameter because the backoff waits
`RETRY_DELAY * retries` with the incremented counter (line 296).
Returns the updated state, the list of backoff delays performed, and the
number of navigation attempts made. -/
def crawlPageGo (cfg : Config) (env : CrawlEnv) (url : String)
    (depth : Nat) : Nat → Nat → CrawlerSt → CrawlerSt × List Nat × Nat
  | 0, _, st => (st, [], 0)
  | remaining + 1, retries, st =>
    match attemptOutcome (env.attempts url retries) with
    | .ok (statusCode, data) =>
      (crawlPageSuccess cfg env url depth st statusCode
        (env.loadTimeOf url retries) data, [], 1)
    | .error msg =>
      if remaining = 0 then
        ({ st with result := st.result.addError url msg env.ts }, [], 1)
      else
        ((crawlPageGo cfg env url depth remaining (retries + 1) st).1,
         cfg.retryDelay * (retries + 1) ::
           (crawlPageGo cfg env url depth remaining (retries + 1) st).2.1,
         (crawlPageGo cfg env url depth remaining (retries + 1) st).2.2 + 1)

/-- `WebCrawler.crawlPage url depth`: run the retry loop from
`retries = 0` with `maxRetries + 1` permitted attempts. -/
def crawlPage (cfg : Config) (env : CrawlEnv) (url : String) (depth : Nat)
    (st : CrawlerSt) : CrawlerSt × List Nat × Nat :=
  crawlPageGo cfg env url depth (cfg.maxRetries + 1) 0 st

/-- The `while` loop of `WebCrawler.crawl` (lines 207-222), with
explicit fuel: each source iteration consumes one unit, and every run
of the source corresponds to a sufficiently large fuel (the loop's
iteration count is bounded because each pop removes an entry and at
most `maxPages` entries are ever admitted).  Guard, pop, the
depth-skip `continue` (line 213) and the `crawlPage` call are as in the
source; the rate-limiting sleep mutates no state. -/
def crawlLoop (cfg : Config) (env : CrawlEnv) :
    Nat → CrawlerSt → CrawlerSt
  | 0, st => st
  | fuel + 1, st =>
    if st.queue.hasMore && decide (st.result.stats.successfulPages < cfg.maxPages) then
      match st.queue.next with
      | (none, q') => { st with queue := q' }
      | (some item, q') =>
        let st' : CrawlerSt := { st with queue := q' }
        if cfg.maxDepth < item.depth then
          crawlLoop cfg env fuel st'
        else
          crawlLoop cfg env fuel (crawlPage cfg env item.url item.depth st').1
    else st

/-- `WebCrawler.crawl` (lines 200-225): seed the frontier with
`(baseUrl, 0)`, run the loop, finalize the result at time `now`. -/
def crawl (cfg : Config) (env : CrawlEnv) (startTime now fuel : Nat) :
    CrawlerSt :=
  let st0 : CrawlerSt :=
    { queue := (URLQueue.add env.norm (URLQueue.init cfg.maxPages) cfg.baseUrl 0).1,
      result := CrawlResult.init startTime }
  let st := crawlLoop cfg env fuel st0
  { st with result := st.result.finalize now }

/-- The CSV header row of `saveResults` (line 423). -/
def csvHeaders : List String :=
  ["url", "depth", "title", "statusCode", "loadTime", "linksCount",
   "imagesCount", "timestamp"]

/-- `replaceAll(/"/g, '""')`: double every double-quote character,
written directly on the character list (the single-character pattern
makes the global replacement a per-character map). -/
def escapeQuotes (s : String) : String :=
  String.mk (s.data.foldr
    (fun c acc => if c = '"' then '"' :: '"' :: acc else c :: acc) [])

/-- One CSV row of `saveResults` (lines 424-433): `url` is wrapped in
double quotes as-is, `title` is wrapped in double quotes with internal
double quotes doubled (`replaceAll(/"/g, '""')`), the numeric fields are
decimal, and `timestamp` is emitted verbatim, unquoted. -/
def csvRow (p : PageData) : List String :=
  ["\"" ++ p.url ++ "\"",
   toString p.depth,
   "\"" ++ escapeQuotes p.title ++ "\"",
   toString p.statusCode,
   toString p.loadTime,
   toString p.links.length,
   toString p.images.length,
   p.timestamp]

/-- The CSV line list: the joined header followed by one joined row per
recorded page, in order (line 435 before the final `join('\n')`). -/
def csvLines (pages : List PageData) : List String :=
  (String.intercalate "," csvHeaders) ::
    pages.map (fun p => String.intercalate "," (csvRow p))

/-- The full CSV document (line 435): lines joined with newlines. -/
def csvOutput (pages : List PageData) : String :=
  String.intercalate "\n" (csvLines pages)

/-- The `crawl` header of the JSON report plus its payload, as written
by `saveResults` (lines 402-416).  `endTimeMs` models
`new Date(this.result.endTime)`: a `null` `endTime` coerces to `0`
(the 1970 epoch).  `durationMs` models `stats.duration`; `none` is the
JavaScript `undefined`, which line 407 serializes as `"NaNs"`. -/
structure SavedReport where
  targetUrl : String
  startTimeMs : Nat
  endTimeMs : Nat
  durationMs : Option Nat
  stats : CrawlStats
  pages : List PageData
  errors : List ErrorRecord
deriving DecidableEq

/-- `WebCrawler.saveResults` JSON branch (lines 400-419), reading the
aggregate exactly as it stands — no finalization happens here. -/
def saveResults (baseUrl : String) (r : CrawlResult) : SavedReport :=
  { targetUrl := baseUrl,
    startTimeMs := r.startTime,
    endTimeMs := r.endTime.getD 0,
    durationMs := r.stats.duration,
    stats := r.stats,
    pages := r.pages,
    errors := r.errors }

/-- What the signal handler leaves behind: the persisted report and the
process exit code. -/
structure ShutdownOutcome where
  report : SavedReport
  exitCode : Nat
deriving DecidableEq

/-- The `shutdown` handler (lines 473-478): on SIGINT/SIGTERM it calls
`crawler.saveResults()` on the crawler's current state, closes the
browser, and exits with code 0.  The frontier is never consulted and
`result.finalize()` is never called on this path. -/
def shutdown (baseUrl : String) (st : CrawlerSt) : ShutdownOutcome :=
  { report := saveResults baseUrl st.result, exitCode := 0 }

/-!
## Parsed-URL model for `URLQueue.normalize`

`URLQueue.normalize` (lines 142-155) runs entirely on the platform's
WHATWG `URL` object: parse, clear `hash`, serialize, then strip one
trailing `'/'` from the serialized string.  To reason about that
algorithm we model a successfully parsed URL as its components, with
JavaScript strings as lists of characters, and the WHATWG serializer as
concatenation `scheme ++ "://" ++ host ++ path ++ query ++ hash`
(`query` carries its leading `'?'` when present, `hash` its `'#'`).
A parse failure corresponds to no `URLRec` existing, and `normalize`
returning `null` — covered at the queue level by `norm url = none`.
-/

/-- The components of a parsed (well-formed) URL. -/
structure URLRec where
  scheme : List Char
  host : List Char
  path : List Char
  query : List Char
  hash : List Char
deriving DecidableEq

/-- WHATWG serialization of a parsed URL, as concatenation of its
components. -/
def serializeURL (u : URLRec) : List Char :=
  u.scheme ++ "://".toList ++ u.host ++ u.path ++ u.query ++ u.hash

/-- `URLQueue.normalize` on an already-parsed URL (lines 146-151):
clear the fragment (`parsed.hash = ''`), serialize, and if the
serialized string ends with `'/'`, drop that last character
(`slice(0, -1)`). -/
def normalizeParsed (u : URLRec) : List Char :=
  let s := serializeURL { u with hash := [] }
  if s.getLast? = some '/' then s.dropLast else s

/-- Modelled from the spec: the normalization described by the
specification text — "parse the URL; strip the fragment; strip a single
trailing slash from the path" — i.e. the trailing-slash removal acts on
the path component, not on the serialized string. -/
def specNormalizeParsed (u : URLRec) : List Char :=
  let p := if u.path.getLast? = some '/' then u.path.dropLast else u.path
  serializeURL { u with hash := [], path := p }

/-!
## Helper lemmas
-/

/-- Characterization of a successful admission: `add` returns `true`
exactly when the URL normalizes, is unvisited, and the budget is not
exhausted. -/
theorem URLQueue.add_snd_true_iff (norm : String → Option String)
    (q : URLQueue) (u : String) (d : Nat) :
    (URLQueue.add norm q u d).2 = true ↔
      ∃ n, norm u = some n ∧ q.visited.contains n = false ∧
        q.visited.length < q.maxPages := by
  constructor
  · intro h
    simp only [URLQueue.add] at h
    cases hn : norm u with
    | none => rw [hn] at h; simp at h
    | some n =>
      simp only [hn] at h
      split at h
      · simp at h
      · split at h
        · simp at h
        · rename_i hc hm
          exact ⟨n, rfl, by simpa using hc, by omega⟩
  · rintro ⟨n, hn, hc, hm⟩
    simp only [URLQueue.add, hn]
    rw [if_neg (by rw [hc]; exact Bool.false_ne_true), if_neg (by omega)]

/-- On a successful admission the entry is appended to the queue and its
normalized form appended to the visited set, in the same step. -/
theorem URLQueue.add_true_eq (norm : String → Option String)
    (q : URLQueue) (u n : String) (d : Nat) (hn : norm u = some n)
    (h : (URLQueue.add norm q u d).2 = true) :
    (URLQueue.add norm q u d).1 =
      { q with queue := q.queue ++ [{ url := n, depth := d }],
               visited := q.visited ++ [n] } := by
  obtain ⟨n', hn', hc, hm⟩ := (URLQueue.add_snd_true_iff norm q u d).mp h
  rw [hn] at hn'
  obtain rfl : n = n' := by injection hn'
  simp only [URLQueue.add, hn]
  rw [if_neg (by rw [hc]; exact Bool.false_ne_true), if_neg (by omega)]

/-- A refused admission leaves the frontier untouched. -/
theorem URLQueue.add_false_eq (norm : String → Option String)
    (q : URLQueue) (u : String) (d : Nat)
    (h : (URLQueue.add norm q u d).2 = false) :
    (URLQueue.add norm q u d).1 = q := by
  simp only [URLQueue.add] at h ⊢
  cases hn : norm u with
  | none => simp [hn]
  | some n =>
    simp only [hn] at h ⊢
    split at h
    · rename_i hc
      rw [if_pos hc]
    · rename_i hc
      split at h
      · rename_i hm
        rw [if_neg hc, if_pos hm]
      · simp at h

/-!
## Claim theorems
-/

/-- C1: `URLQueue.add(u, d)` admits only if `u` parses (normalizes), its
normalized form is not yet visited, and `visited.size < maxPages`; on
admission the entry is appended to the queue and the normalized URL
added to the visited set in the same step; and two consecutive `add`
calls with the same URL admit it at most once, even while the first
entry is still queued. -/
theorem urlqueue_add_admission (norm : String → Option String)
    (q : URLQueue) (u : String) (d d' : Nat) :
    ((URLQueue.add norm q u d).2 = true →
      ∃ n, norm u = some n ∧ q.visited.contains n = false ∧
        q.visited.length < q.maxPages ∧
        (URLQueue.add norm q u d).1.queue =
          q.queue ++ [{ url := n, depth := d }] ∧
        (URLQueue.add norm q u d).1.visited = q.visited ++ [n])
    ∧ ¬((URLQueue.add norm q u d).2 = true ∧
        (URLQueue.add norm (URLQueue.add norm q u d).1 u d').2 = true) := by
  constructor
  · intro h
    obtain ⟨n, hn, hc, hm⟩ := (URLQueue.add_snd_true_iff norm q u d).mp h
    refine ⟨n, hn, hc, hm, ?_, ?_⟩
    · rw [URLQueue.add_true_eq norm q u n d hn h]
    · rw [URLQueue.add_true_eq norm q u n d hn h]
  · rintro ⟨h1, h2⟩
    obtain ⟨n, hn, _, _⟩ := (URLQueue.add_snd_true_iff norm q u d).mp h1
    obtain ⟨n', hn', hc', _⟩ :=
      (URLQueue.add_snd_true_iff norm (URLQueue.add norm q u d).1 u d').mp h2
    rw [hn] at hn'
    cases hn'
    rw [URLQueue.add_true_eq norm q u n d hn h1] at hc'
    simp at hc'

/-- Witness for C1: on an empty frontier with budget 5 a first `add`
admits, and the admission facts hold concretely. -/
theorem urlqueue_add_admission_witness :
    ∃ n, (fun s => some s) "http://a.com/x" = some n ∧
      (URLQueue.init 5).visited.contains n = false ∧
      (URLQueue.init 5).visited.length < (URLQueue.init 5).maxPages ∧
      (URLQueue.add (fun s => some s) (URLQueue.init 5) "http://a.com/x" 0).1.queue =
        (URLQueue.init 5).queue ++ [{ url := n, depth := 0 }] ∧
      (URLQueue.add (fun s => some s) (URLQueue.init 5) "http://a.com/x" 0).1.visited =
        (URLQueue.init 5).visited ++ [n] :=
  (urlqueue_add_admission (fun s => some s) (URLQueue.init 5)
    "http://a.com/x" 0 1).1 (by decide)

/-- An aggregator mutation: either a successful page or an error. -/
inductive AggEvent where
  | page (p : PageData)
  | error (url msg ts : String)

/-- Apply one aggregator mutation. -/
def applyAggEvent (r : CrawlResult) (e : AggEvent) : CrawlResult :=
  match e with
  | .page p => r.addPage p
  | .error url msg ts => r.addError url msg ts

/-- The stats balance `totalPages = successfulPages + failedPages`. -/
def statsBalanced (r : CrawlResult) : Prop :=
  r.stats.totalPages = r.stats.successfulPages + r.stats.failedPages

theorem statsBalanced_apply (r : CrawlResult) (e : AggEvent)
    (h : statsBalanced r) : statsBalanced (applyAggEvent r e) := by
  cases e with
  | page p =>
    simp [statsBalanced, applyAggEvent, CrawlResult.addPage] at *
    omega
  | error url msg ts =>
    simp [statsBalanced, applyAggEvent, CrawlResult.addError] at *
    omega

theorem statsBalanced_foldl (evs : List AggEvent) (r : CrawlResult)
    (h : statsBalanced r) : statsBalanced (evs.foldl applyAggEvent r) := by
  induction evs generalizing r with
  | nil => exact h
  | cons e evs ih => exact ih _ (statsBalanced_apply r e h)

/-- C3: `addPage` increments `totalPages` and `successfulPages` by one,
`addError` increments `totalPages` and `failedPages` by one, and after
any sequence of `addPage`/`addError` calls on a fresh aggregator
`stats.totalPages = stats.successfulPages + stats.failedPages`. -/
theorem crawlResult_stats_invariant (startTime : Nat)
    (evs : List AggEvent) (r : CrawlResult) (p : PageData)
    (url msg ts : String) :
    ((r.addPage p).stats.totalPages = r.stats.totalPages + 1 ∧
     (r.addPage p).stats.successfulPages = r.stats.successfulPages + 1 ∧
     (r.addPage p).stats.failedPages = r.stats.failedPages)
    ∧ ((r.addError url msg ts).stats.totalPages = r.stats.totalPages + 1 ∧
       (r.addError url msg ts).stats.failedPages = r.stats.failedPages + 1 ∧
       (r.addError url msg ts).stats.successfulPages = r.stats.successfulPages)
    ∧ (evs.foldl applyAggEvent (CrawlResult.init startTime)).stats.totalPages =
        (evs.foldl applyAggEvent (CrawlResult.init startTime)).stats.successfulPages +
        (evs.foldl applyAggEvent (CrawlResult.init startTime)).stats.failedPages := by
  refine ⟨⟨rfl, rfl, rfl⟩, ⟨rfl, rfl, rfl⟩, ?_⟩
  exact statsBalanced_foldl evs (CrawlResult.init startTime) rfl

/-- The retry loop performs at most `remaining` navigation attempts. -/
theorem crawlPageGo_attempts_le (cfg : Config) (env : CrawlEnv)
    (url : String) (depth : Nat) :
    ∀ (remaining retries : Nat) (st : CrawlerSt),
      (crawlPageGo cfg env url depth remaining retries st).2.2 ≤ remaining := by
  intro remaining
  induction remaining with
  | zero =>
    intro retries st
    simp [crawlPageGo]
  | succ r ih =>
    intro retries st
    cases h : attemptOutcome (env.attempts url retries) with
    | ok v =>
      obtain ⟨s, dat⟩ := v
      simp [crawlPageGo, h]
    | error msg =>
      by_cases hr : r = 0
      · simp [crawlPageGo, h, hr]
      · simp only [crawlPageGo, h]
        rw [if_neg hr]
        have := ih (retries + 1) st
        simpa using Nat.succ_le_succ this

/-- The `i`-th backoff delay (0-based) of the retry loop entered with
counter `retries` is `retryDelay * (retries + 1 + i)`. -/
theorem crawlPageGo_delay_law (cfg : Config) (env : CrawlEnv)
    (url : String) (depth : Nat) :
    ∀ (remaining retries : Nat) (st : CrawlerSt) (i d : Nat),
      (crawlPageGo cfg env url depth remaining retries st).2.1.get? i = some d →
      d = cfg.retryDelay * (retries + 1 + i) := by
  intro remaining
  induction remaining with
  | zero =>
    intro retries st i d h
    simp [crawlPageGo] at h
  | succ r ih =>
    intro retries st i d h
    cases ha : attemptOutcome (env.attempts url retries) with
    | ok v =>
      obtain ⟨s, dat⟩ := v
      simp [crawlPageGo, ha] at h
    | error msg =>
      by_cases hr : r = 0
      · simp [crawlPageGo, ha, hr] at h
      · simp only [crawlPageGo, ha] at h
        rw [if_neg hr] at h
        cases i with
        | zero =>
          simp at h
          simpa using h.symm
        | succ j =>
          simp only [List.get?_cons_succ] at h
          have hj := ih (retries + 1) st j d h
          rw [hj]
          congr 1
          omega

/-- When every attempt fails, the retry loop (entered with a positive
attempt budget) records exactly one error, makes exactly `remaining`
attempts, and performs `remaining - 1` backoff delays. -/
theorem crawlPageGo_allfail (cfg : Config) (env : CrawlEnv)
    (url : String) (depth : Nat) (msg : String)
    (hall : ∀ k, env.attempts url k = .thrown msg) :
    ∀ (remaining retries : Nat) (st : CrawlerSt), 0 < remaining →
      (crawlPageGo cfg env url depth remaining retries st).1 =
        { st with result := st.result.addError url msg env.ts } ∧
      (crawlPageGo cfg env url depth remaining retries st).2.2 = remaining ∧
      (crawlPageGo cfg env url depth remaining retries st).2.1.length =
        remaining - 1 := by
  intro remaining
  induction remaining with
  | zero =>
    intro retries st h
    omega
  | succ r ih =>
    intro retries st _
    have ha : attemptOutcome (env.attempts url retries) = .error msg := by
      rw [hall retries]
      rfl
    by_cases hr : r = 0
    · subst hr
      simp [crawlPageGo, ha]
    · have hrec := ih (retries + 1) st (by omega)
      simp only [crawlPageGo, ha]
      rw [if_neg hr]
      refine ⟨hrec.1, ?_, ?_⟩

      · simpa using hrec.2.1
      · simp only [List.length_cons]
        omega

/-- C2: the per-page retry wrapper makes at most `maxRetries + 1`
attempts; the delay after the `k`-th failure is `retryDelay * k`
(linear backoff); with `maxRetries = 3`, two failures followed by a
success yield exactly one page record, no error record, and the two
delays `retryDelay * 1, retryDelay * 2`; and when every attempt fails,
exactly one error record is produced and the call returns normally
(the error never escapes the per-page boundary). -/
theorem crawlPage_retry_policy (cfg : Config) (env : CrawlEnv)
    (url : String) (depth : Nat) (st : CrawlerSt) (m0 m1 msg : String)
    (data : ExtractData) (i d : Nat) :
    ((crawlPage cfg env url depth st).2.2 ≤ cfg.maxRetries + 1)
    ∧ ((crawlPage cfg env url depth st).2.1.get? i = some d →
        d = cfg.retryDelay * (i + 1))
    ∧ (cfg.maxRetries = 3 →
        env.attempts url 0 = .thrown m0 →
        env.attempts url 1 = .thrown m1 →
        env.attempts url 2 = .navigated (some 200) data →
        (crawlPage cfg env url depth st).1.result.pages =
          st.result.pages ++
            [mkPageData url depth env.ts data 200 (env.loadTimeOf url 2)] ∧
        (crawlPage cfg env url depth st).1.result.errors =
          st.result.errors ∧
        (crawlPage cfg env url depth st).2.1 =
          [cfg.retryDelay * 1, cfg.retryDelay * 2])
    ∧ ((∀ k, env.attempts url k = .thrown msg) →
        (crawlPage cfg env url depth st).1.result.pages =
          st.result.pages ∧
        (crawlPage cfg env url depth st).1.result.errors =
          st.result.errors ++
            [{ url := url, error := msg, timestamp := env.ts }] ∧
        (crawlPage cfg env url depth st).2.2 = cfg.maxRetries + 1) := by
  refine ⟨?_, ?_, ?_, ?_⟩
  · exact crawlPageGo_attempts_le cfg env url depth (cfg.maxRetries + 1) 0 st
  · intro h
    have := crawlPageGo_delay_law cfg env url depth (cfg.maxRetries + 1) 0 st i d h
    rw [this]
    congr 1
    omega
  · intro hmr h0 h1 h2
    have e0 : attemptOutcome (env.attempts url 0) = .error m0 := by rw [h0]; rfl
    have e1 : attemptOutcome (env.attempts url 1) = .error m1 := by rw [h1]; rfl
    have e2 : attemptOutcome (env.attempts url 2) = .ok (200, data) := by
      rw [h2]
      rfl
    have hred : crawlPage cfg env url depth st =
        ((crawlPageSuccess cfg env url depth st 200 (env.loadTimeOf url 2) data),
         [cfg.retryDelay * 1, cfg.retryDelay * 2], 3) := by
      simp [crawlPage, hmr, crawlPageGo, e0, e1, e2]
    rw [hred]
    refine ⟨?_, ?_, rfl⟩
    · simp only [crawlPageSuccess]
      split <;> simp [CrawlResult.addPage]
    · simp only [crawlPageSuccess]
      split <;> simp [CrawlResult.addPage]
  · intro hall
    have := crawlPageGo_allfail cfg env url depth msg hall
      (cfg.maxRetries + 1) 0 st (by omega)
    refine ⟨?_, ?_, this.2.1⟩
    · rw [show (crawlPage cfg env url depth st).1 = _ from this.1]
      rfl
    · rw [show (crawlPage cfg env url depth st).1 = _ from this.1]
      rfl

/-- A sample extraction payload for concrete-input theorems. -/
def sampleData : ExtractData :=
  { title := "T", headings := [], links := [], images := [],
    tables := [], textContent := [] }

/-- A concrete configuration: `maxRetries = 3`, `retryDelay = 100`, as
in the retry scenario of the spec (and `config.js` up to the delay
constant). -/
def cfgW : Config :=
  { baseUrl := "http://a.com", maxDepth := 2, maxPages := 50,
    maxRetries := 3, retryDelay := 100 }

/-- A concrete environment whose first two navigation attempts throw
and whose third succeeds with HTTP 200. -/
def envFailTwice : CrawlEnv :=
  { norm := fun s => some s, hostOf := fun _ => some "a.com",
    baseHost := "a.com",
    attempts := fun _ k =>
      if k < 2 then .thrown "net::ERR_TIMED_OUT"
      else .navigated (some 200) sampleData,
    loadTimeOf := fun _ _ => 7, ts := "2024-01-01T00:00:00.000Z" }

/-- A concrete environment where every navigation attempt throws. -/
def envAlwaysFail : CrawlEnv :=
  { envFailTwice with attempts := fun _ _ => .thrown "net::ERR_TIMED_OUT" }

/-- A fresh crawler state with page budget 50. -/
def stW : CrawlerSt :=
  { queue := URLQueue.init 50, result := CrawlResult.init 0 }

/-- Witness for C2: the fail-fail-succeed environment concretely yields
one page, no errors and delays `[100, 200]`; the first delay is
`retryDelay * 1`; and the always-failing environment concretely yields
one error and `maxRetries + 1 = 4` attempts. -/
theorem crawlPage_retry_policy_witness :
    ((crawlPage cfgW envFailTwice "http://a.com/p" 1 stW).1.result.pages =
        stW.result.pages ++
          [mkPageData "http://a.com/p" 1 envFailTwice.ts sampleData 200 7] ∧
      (crawlPage cfgW envFailTwice "http://a.com/p" 1 stW).1.result.errors =
        stW.result.errors ∧
      (crawlPage cfgW envFailTwice "http://a.com/p" 1 stW).2.1 =
        [cfgW.retryDelay * 1, cfgW.retryDelay * 2])
    ∧ ((100 : Nat) = cfgW.retryDelay * (0 + 1))
    ∧ ((crawlPage cfgW envAlwaysFail "http://a.com/p" 1 stW).1.result.pages =
        stW.result.pages ∧
      (crawlPage cfgW envAlwaysFail "http://a.com/p" 1 stW).1.result.errors =
        stW.result.errors ++
          [{ url := "http://a.com/p", error := "net::ERR_TIMED_OUT",
             timestamp := envAlwaysFail.ts }] ∧
      (crawlPage cfgW envAlwaysFail "http://a.com/p" 1 stW).2.2 =
        cfgW.maxRetries + 1) :=
  ⟨(crawlPage_retry_policy cfgW envFailTwice "http://a.com/p" 1 stW
      "net::ERR_TIMED_OUT" "net::ERR_TIMED_OUT" "x" sampleData 0 0).2.2.1
      rfl rfl rfl rfl,
   (crawlPage_retry_policy cfgW envFailTwice "http://a.com/p" 1 stW
      "net::ERR_TIMED_OUT" "net::ERR_TIMED_OUT" "x" sampleData 0 100).2.1
      (by decide),
   (crawlPage_retry_policy cfgW envAlwaysFail "http://a.com/p" 1 stW
      "x" "x" "net::ERR_TIMED_OUT" sampleData 0 0).2.2.2
      (fun k => rfl)⟩

/-- A concrete page record. -/
def samplePage : PageData :=
  mkPageData "http://a.com/A" 0 "2024-01-01T00:00:00.000Z" sampleData 200 5

/-- C7 counterexample: the source has no post-finalize guard at all —
after `finalize`, `addPage` and `addError` are still accepted and
mutate the aggregate (records appended, counters bumped), so they
neither fail fast nor are they ignored; the claim that they "fail fast
as a programming error" is false on this concrete input. -/
theorem addPage_after_finalize_cex :
    (((CrawlResult.init 0).finalize 100).addPage samplePage).pages.length = 1
    ∧ (((CrawlResult.init 0).finalize 100).addPage samplePage).stats.totalPages
        = 1
    ∧ (((CrawlResult.init 0).finalize 100).addError "http://a.com/B" "boom"
        "ts").errors.length = 1
    ∧ (((CrawlResult.init 0).finalize 100).addError "http://a.com/B" "boom"
        "ts").stats.failedPages = 1 :=
  ⟨rfl, rfl, rfl, rfl⟩

/-- C7 amended: `addPage`/`addError` after `finalize` are silently
accepted and mutate the aggregate (the source has no guard), and
calling `finalize` twice recomputes `endTime` and `duration` from the
last call — duration is never double-counted, the second call wins. -/
theorem finalize_unguarded (r : CrawlResult) (p : PageData)
    (url msg ts : String) (t1 t2 : Nat) :
    ((r.finalize t1).addPage p).pages = r.pages ++ [p]
    ∧ ((r.finalize t1).addPage p).stats.totalPages = r.stats.totalPages + 1
    ∧ ((r.finalize t1).addError url msg ts).errors =
        r.errors ++ [{ url := url, error := msg, timestamp := ts }]
    ∧ ((r.finalize t1).addError url msg ts).stats.failedPages =
        r.stats.failedPages + 1
    ∧ (r.finalize t1).finalize t2 = r.finalize t2 :=
  ⟨rfl, rfl, rfl, rfl, rfl⟩

/-- C10: no response object defaults the status code to 0, which does
not meet the `>= 400` failure test, so the visit succeeds and records a
page with `statusCode = 0` (no retry, no error record); an HTTP failure
is thrown exactly when a response is present with status `>= 400`. -/
theorem status_default_success (response : Option Nat) (data : ExtractData)
    (cfg : Config) (env : CrawlEnv) (url : String) (depth : Nat)
    (st : CrawlerSt)
    (hnav : env.attempts url 0 = .navigated none data) :
    ((∃ msg, attemptOutcome (.navigated response data) = .error msg) ↔
      (∃ s, response = some s ∧ 400 ≤ s))
    ∧ attemptOutcome (.navigated none data) = .ok (0, data)
    ∧ (crawlPage cfg env url depth st).1.result.pages =
        st.result.pages ++
          [mkPageData url depth env.ts data 0 (env.loadTimeOf url 0)]
    ∧ (crawlPage cfg env url depth st).1.result.errors = st.result.errors
    ∧ (crawlPage cfg env url depth st).2.1 = [] := by
  have e0 : attemptOutcome (env.attempts url 0) = .ok (0, data) := by
    rw [hnav]
    rfl
  have hred : crawlPage cfg env url depth st =
      (crawlPageSuccess cfg env url depth st 0 (env.loadTimeOf url 0) data,
       [], 1) := by
    simp [crawlPage, crawlPageGo, e0]
  refine ⟨?_, rfl, ?_, ?_, ?_⟩
  · constructor
    · rintro ⟨msg, hmsg⟩
      simp only [attemptOutcome] at hmsg
      split at hmsg
      · rename_i h4
        cases response with
        | none => simp at h4
        | some s => exact ⟨s, rfl, by simpa using h4⟩
      · cases hmsg
    · rintro ⟨s, rfl, hs⟩
      refine ⟨"HTTP " ++ toString s, ?_⟩
      simp [attemptOutcome, hs]
  · rw [hred]
    simp only [crawlPageSuccess]
    split <;> simp [CrawlResult.addPage]
  · rw [hred]
    simp only [crawlPageSuccess]
    split <;> simp [CrawlResult.addPage]
  · rw [hred]

/-- A concrete environment whose navigation completes with a `null`
response object. -/
def envNoResponse : CrawlEnv :=
  { envFailTwice with attempts := fun _ _ => .navigated none sampleData }

/-- Any entry of the queue after an `add` is an old entry or carries
the inserted depth. -/
theorem URLQueue.add_queue_mem (norm : String → Option String)
    (q : URLQueue) (u : String) (d : Nat) (e : FrontierEntry)
    (h : e ∈ (URLQueue.add norm q u d).1.queue) :
    e ∈ q.queue ∨ e.depth = d := by
  cases hb : (URLQueue.add norm q u d).2 with
  | false =>
    rw [URLQueue.add_false_eq norm q u d hb] at h
    exact Or.inl h
  | true =>
    obtain ⟨n, hn, _, _⟩ := (URLQueue.add_snd_true_iff norm q u d).mp hb
    rw [URLQueue.add_true_eq norm q u n d hn hb] at h
    simp only [List.mem_append, List.mem_singleton] at h
    rcases h with h | h
    · exact Or.inl h
    · right
      rw [h]

/-- The queue component of the link-discovery fold does not depend on
the admission counter. -/
theorem addLinksLoop_fst_aux (norm : String → Option String) (d : Nat) :
    ∀ (links : List String) (q : URLQueue) (c : Nat),
      (links.foldl
        (fun acc link =>
          ((URLQueue.add norm acc.1 link d).1,
           acc.2 + (if (URLQueue.add norm acc.1 link d).2 then 1 else 0)))
        (q, c)).1 = (addLinksLoop norm q links d).1 := by
  intro links
  induction links with
  | nil =>
    intro q c
    rfl
  | cons l ls ih =>
    intro q c
    simp only [addLinksLoop, List.foldl_cons]
    rw [ih, ih]

/-- Any entry of the queue after the link-discovery loop is an old
entry or carries the inserted depth. -/
theorem addLinksLoop_queue_mem (norm : String → Option String) (d : Nat) :
    ∀ (links : List String) (q : URLQueue) (e : FrontierEntry),
      e ∈ (addLinksLoop norm q links d).1.queue →
      e ∈ q.queue ∨ e.depth = d := by
  intro links
  induction links with
  | nil =>
    intro q e h
    exact Or.inl h
  | cons l ls ih =>
    intro q e h
    simp only [addLinksLoop, List.foldl_cons] at h
    rw [addLinksLoop_fst_aux norm d ls] at h
    rcases ih _ e h with h' | h'
    · exact URLQueue.add_queue_mem norm q l d e h'
    · exact Or.inr h'

/-- The depth invariant: every frontier entry and every recorded page
sits at depth at most `maxDepth`. -/
def depthInv (maxDepth : Nat) (st : CrawlerSt) : Prop :=
  (∀ e ∈ st.queue.queue, e.depth ≤ maxDepth) ∧
  (∀ p ∈ st.result.pages, p.depth ≤ maxDepth)

/-- A successful page visit at an in-bound depth preserves the depth
invariant: links are enqueued at `depth + 1` only when
`depth < maxDepth`, and the recorded page carries `depth`. -/
theorem crawlPageSuccess_depthInv (cfg : Config) (env : CrawlEnv)
    (url : String) (depth : Nat) (st : CrawlerSt)
    (statusCode loadTime : Nat) (data : ExtractData)
    (hd : depth ≤ cfg.maxDepth) (h : depthInv cfg.maxDepth st) :
    depthInv cfg.maxDepth
      (crawlPageSuccess cfg env url depth st statusCode loadTime data) := by
  obtain ⟨hq, hp⟩ := h
  constructor
  · intro e he
    simp only [crawlPageSuccess] at he
    by_cases hlt : depth < cfg.maxDepth
    · rw [if_pos hlt] at he
      rcases addLinksLoop_queue_mem env.norm (depth + 1) _ _ e he with h' | h'
      · exact hq e h'
      · omega
    · rw [if_neg hlt] at he
      exact hq e he
  · intro p hpm
    simp only [crawlPageSuccess] at hpm
    by_cases hlt : depth < cfg.maxDepth
    · rw [if_pos hlt] at hpm
      simp only [CrawlResult.addPage, List.mem_append, List.mem_singleton] at hpm
      rcases hpm with h' | h'
      · exact hp p h'
      · rw [h']
        exact hd
    · rw [if_neg hlt] at hpm
      simp only [CrawlResult.addPage, List.mem_append, List.mem_singleton] at hpm
      rcases hpm with h' | h'
      · exact hp p h'
      · rw [h']
        exact hd

/-- The whole retry loop preserves the depth invariant when invoked at
an in-bound depth (error records never touch the frontier or pages). -/
theorem crawlPageGo_depthInv (cfg : Config) (env : CrawlEnv)
    (url : String) (depth : Nat) (hd : depth ≤ cfg.maxDepth) :
    ∀ (remaining retries : Nat) (st : CrawlerSt), depthInv cfg.maxDepth st →
      depthInv cfg.maxDepth
        (crawlPageGo cfg env url depth remaining retries st).1 := by
  intro remaining
  induction remaining with
  | zero =>
    intro retries st h
    simpa [crawlPageGo] using h
  | succ r ih =>
    intro retries st h
    cases ha : attemptOutcome (env.attempts url retries) with
    | ok v =>
      obtain ⟨s, dat⟩ := v
      simp only [crawlPageGo, ha]
      exact crawlPageSuccess_depthInv cfg env url depth st s
        (env.loadTimeOf url retries) dat hd h
    | error msg =>
      by_cases hr : r = 0
      · subst hr
        simp only [crawlPageGo, ha, if_pos rfl]
        exact ⟨h.1, h.2⟩
      · simp only [crawlPageGo, ha]
        rw [if_neg hr]
        exact ih (retries + 1) st h

/-- The traversal loop preserves the depth invariant: over-depth
entries are skipped without a visit, in-bound entries are visited via
the retry loop. -/
theorem crawlLoop_depthInv (cfg : Config) (env : CrawlEnv) :
    ∀ (fuel : Nat) (st : CrawlerSt), depthInv cfg.maxDepth st →
      depthInv cfg.maxDepth (crawlLoop cfg env fuel st) := by
  intro fuel
  induction fuel with
  | zero =>
    intro st h
    exact h
  | succ f ih =>
    intro st h
    simp only [crawlLoop]
    split
    · cases hq : st.queue.queue with
      | nil =>
        simp only [URLQueue.next, hq]
        exact ⟨fun e he => absurd (hq ▸ he) (List.not_mem_nil e), h.2⟩
      | cons e rest =>
        simp only [URLQueue.next, hq]
        have hrest : depthInv cfg.maxDepth
            { st with queue := { st.queue with queue := rest } } := by
          refine ⟨fun e' he' => h.1 e' ?_, h.2⟩
          rw [hq]
          exact List.mem_cons_of_mem e he'
        split
        · exact ih _ hrest
        · rename_i hdepth
          exact ih _ (crawlPageGo_depthInv cfg env e.url e.depth
            (by omega) (cfg.maxRetries + 1) 0 _ hrest)
    · exact h

/-- C4: in every run, every recorded page and every entry left in the
frontier sits at depth at most `maxDepth`: entries beyond `maxDepth`
are never inserted (link discovery only runs when `depth < maxDepth`,
inserting at `depth + 1`), rather than being filtered after dequeue. -/
theorem crawl_depth_bound (cfg : Config) (env : CrawlEnv)
    (startTime now fuel : Nat) :
    ((crawl cfg env startTime now fuel).result.pages.all
        (fun p => decide (p.depth ≤ cfg.maxDepth))) = true
    ∧ ((crawl cfg env startTime now fuel).queue.queue.all
        (fun e => decide (e.depth ≤ cfg.maxDepth))) = true := by
  have hseed : depthInv cfg.maxDepth
      { queue := (URLQueue.add env.norm (URLQueue.init cfg.maxPages)
          cfg.baseUrl 0).1,
        result := CrawlResult.init startTime } := by
    constructor
    · intro e he
      rcases URLQueue.add_queue_mem env.norm (URLQueue.init cfg.maxPages)
          cfg.baseUrl 0 e he with h' | h'
      · exact absurd h' (List.not_mem_nil e)
      · omega
    · intro p hpm
      exact absurd hpm (List.not_mem_nil p)
  have hfin := crawlLoop_depthInv cfg env fuel _ hseed
  constructor
  · rw [List.all_eq_true]
    intro p hpm
    exact decide_eq_true (hfin.2 p hpm)
  · rw [List.all_eq_true]
    intro e he
    exact decide_eq_true (hfin.1 e he)

/-- Witness for C10: with a `null` response the concrete crawl of one
page records it with `statusCode = 0` and no error, and `HTTP 404` with
a present response is a failure while an absent response is not. -/
theorem status_default_success_witness :
    ((∃ msg, attemptOutcome (.navigated (some 404) sampleData) = .error msg) ↔
      (∃ s, (some 404 : Option Nat) = some s ∧ 400 ≤ s))
    ∧ attemptOutcome (.navigated none sampleData) = .ok (0, sampleData)
    ∧ (crawlPage cfgW envNoResponse "http://a.com/p" 1 stW).1.result.pages =
        stW.result.pages ++
          [mkPageData "http://a.com/p" 1 envNoResponse.ts sampleData 0 7]
    ∧ (crawlPage cfgW envNoResponse "http://a.com/p" 1 stW).1.result.errors =
        stW.result.errors
    ∧ (crawlPage cfgW envNoResponse "http://a.com/p" 1 stW).2.1 = [] :=
  status_default_success (some 404) sampleData cfgW envNoResponse
    "http://a.com/p" 1 stW rfl

/-- The concrete link structure of the spec's breadth-first test: seed
`A` links to `B` and `C`, `B` links to `D`. -/
def bfsLinks (u : String) : List String :=
  if u = "http://a.com/A" then ["http://a.com/B", "http://a.com/C"]
  else if u = "http://a.com/B" then ["http://a.com/D"]
  else []

/-- A deterministic environment for the breadth-first scenario: every
navigation succeeds with HTTP 200 and yields `bfsLinks`. -/
def bfsEnv : CrawlEnv :=
  { norm := fun s => some s, hostOf := fun _ => some "a.com",
    baseHost := "a.com",
    attempts := fun u _ => .navigated (some 200)
      { title := u, headings := [], links := bfsLinks u, images := [],
        tables := [], textContent := [] },
    loadTimeOf := fun _ _ => 1, ts := "ts" }

/-- Configuration for the breadth-first scenario: `maxDepth = 2`. -/
def bfsCfg : Config :=
  { baseUrl := "http://a.com/A", maxDepth := 2, maxPages := 50,
    maxRetries := 3, retryDelay := 100 }

/-- C5: `next()` pops the front while `add` appends at the back (FIFO,
so entries come out in admission order and each page's filtered links
are enqueued at `depth + 1` in extractor order), and on the concrete
web where seed `A` links to `B, C` and `B` links to `D` with
`maxDepth = 2`, the visitation order is exactly `A, B, C, D`. -/
theorem crawl_bfs_order :
    ((crawl bfsCfg bfsEnv 0 99 10).result.pages.map PageData.url =
      ["http://a.com/A", "http://a.com/B", "http://a.com/C",
       "http://a.com/D"])
    ∧ (∀ q : URLQueue, (URLQueue.next q).1 = q.queue.head? ∧
        (URLQueue.next q).2.queue = q.queue.tail)
    ∧ (∀ (norm : String → Option String) (q : URLQueue) (u : String)
        (d : Nat),
        (URLQueue.add norm q u d).2 = true →
        ∃ n, norm u = some n ∧
          (URLQueue.add norm q u d).1.queue =
            q.queue ++ [{ url := n, depth := d }]) := by
  refine ⟨by decide, ?_, ?_⟩
  · intro q
    cases hq : q.queue with
    | nil =>
      exact ⟨by simp [URLQueue.next, hq], by simp [URLQueue.next, hq]⟩
    | cons e rest =>
      exact ⟨by simp [URLQueue.next, hq], by simp [URLQueue.next, hq]⟩
  · intro norm q u d h
    obtain ⟨n, hn, _, _⟩ := (URLQueue.add_snd_true_iff norm q u d).mp h
    exact ⟨n, hn, by rw [URLQueue.add_true_eq norm q u n d hn h]⟩

/-- Witness for C5: a concrete admission appends its entry at the back
of the queue. -/
theorem crawl_bfs_order_witness :
    ∃ n, (fun s => some s) "http://a.com/x" = some n ∧
      (URLQueue.add (fun s => some s) (URLQueue.init 5)
        "http://a.com/x" 2).1.queue =
        (URLQueue.init 5).queue ++ [{ url := n, depth := 2 }] :=
  crawl_bfs_order.2.2 (fun s => some s) (URLQueue.init 5)
    "http://a.com/x" 2 (by decide)

/-- A page record for the cancellation scenario. -/
def pageFor (u : String) (d : Nat) : PageData :=
  mkPageData u d "2024-01-01T00:00:00.000Z" sampleData 200 5

/-- A crawler state mid-run: three pages successfully recorded, seven
entries still queued, the aggregate not yet finalized
(`endTime = null`, `duration` undefined). -/
def midRunSt : CrawlerSt :=
  { queue :=
      { queue :=
          [{ url := "http://a.com/4", depth := 1 },
           { url := "http://a.com/5", depth := 1 },
           { url := "http://a.com/6", depth := 1 },
           { url := "http://a.com/7", depth := 1 },
           { url := "http://a.com/8", depth := 1 },
           { url := "http://a.com/9", depth := 1 },
           { url := "http://a.com/10", depth := 1 }],
        visited :=
          ["http://a.com/1", "http://a.com/2", "http://a.com/3",
           "http://a.com/4", "http://a.com/5", "http://a.com/6",
           "http://a.com/7", "http://a.com/8", "http://a.com/9",
           "http://a.com/10"],
        maxPages := 10 },
    result :=
      (((CrawlResult.init 50).addPage (pageFor "http://a.com/1" 0)).addPage
          (pageFor "http://a.com/2" 1)).addPage
        (pageFor "http://a.com/3" 1) }

/-- C6: on SIGINT/SIGTERM mid-run the handler persists the report over
exactly the three pages collected so far, discards the seven remaining
frontier entries without error-recording them, and exits with code 0 —
but it never finalizes the aggregator: `saveResults` is called with
`endTime` still `null`, so the persisted `endTime` collapses to the
1970 epoch (`new Date(null)`) and `duration` is undefined (serialized
as `NaN`), contradicting the specified finalize-then-persist order. -/
theorem shutdown_skips_finalize :
    (shutdown "http://a.com" midRunSt).report.pages =
      [pageFor "http://a.com/1" 0, pageFor "http://a.com/2" 1,
       pageFor "http://a.com/3" 1]
    ∧ (shutdown "http://a.com" midRunSt).report.stats.successfulPages = 3
    ∧ (shutdown "http://a.com" midRunSt).report.errors = []
    ∧ midRunSt.queue.queue.length = 7
    ∧ (shutdown "http://a.com" midRunSt).report.durationMs = none
    ∧ (shutdown "http://a.com" midRunSt).report.endTimeMs = 0
    ∧ (shutdown "http://a.com" midRunSt).exitCode = 0 :=
  ⟨rfl, rfl, rfl, rfl, rfl, rfl, rfl⟩

/-- `getLast?` of an append with a nonempty right part is the right
part's. -/
theorem getLast?_append_right {α : Type} (A p : List α) (hp : p ≠ []) :
    (A ++ p).getLast? = p.getLast? := by
  rw [List.getLast?_append]
  cases hl : p.getLast? with
  | none => exact absurd (List.getLast?_eq_none_iff.mp hl) hp
  | some c => rfl

/-- The parsed form of `http://a.com/b/?x=1#f`: a path with a trailing
slash followed by a query string. -/
def urlQueryCex : URLRec :=
  { scheme := "http".toList, host := "a.com".toList,
    path := "/b/".toList, query := "?x=1".toList, hash := "#f".toList }

/-- C8 counterexample: the source strips the trailing slash of the
*serialized* URL, so for `http://a.com/b/?x=1#f` — whose serialization
after fragment removal ends in `1`, not `/` — the path's trailing slash
is kept, while the claim's "strip a single trailing slash from the
path" would remove it.  The two normalizations disagree. -/
theorem normalize_path_slash_cex :
    normalizeParsed urlQueryCex ≠ specNormalizeParsed urlQueryCex := by
  decide

/-- C8 amended: normalization strips the fragment and then a single
trailing slash of the *serialized* URL — which coincides with stripping
it from the path exactly when the URL has no query string; a URL the
platform fails to parse makes `add` return `false` with the frontier
untouched (no error raised); and two URLs with the same normalized
form are admitted at most once. -/
theorem normalize_amended (u : URLRec) (norm : String → Option String)
    (q : URLQueue) (u1 u2 : String) (d1 d2 : Nat) (n : String) :
    (u.query = [] → u.path ≠ [] →
      normalizeParsed u = specNormalizeParsed u)
    ∧ (norm u1 = none → URLQueue.add norm q u1 d1 = (q, false))
    ∧ (norm u1 = some n → norm u2 = some n →
        ¬((URLQueue.add norm q u1 d1).2 = true ∧
          (URLQueue.add norm (URLQueue.add norm q u1 d1).1 u2 d2).2 =
            true)) := by
  refine ⟨?_, ?_, ?_⟩
  · intro hq hp
    simp only [normalizeParsed, specNormalizeParsed, serializeURL, hq,
      List.append_nil]
    rw [getLast?_append_right _ _ hp]
    by_cases hl : u.path.getLast? = some '/'
    · rw [if_pos hl, if_pos hl, List.dropLast_append_of_ne_nil _ hp]
    · rw [if_neg hl, if_neg hl]
  · intro h
    simp [URLQueue.add, h]
  · rintro h1 h2 ⟨ha, hb⟩
    obtain ⟨n1, hn1, _, _⟩ := (URLQueue.add_snd_true_iff norm q u1 d1).mp ha
    rw [h1] at hn1
    obtain rfl : n = n1 := by injection hn1
    obtain ⟨n2, hn2, hc2, _⟩ :=
      (URLQueue.add_snd_true_iff norm (URLQueue.add norm q u1 d1).1 u2
        d2).mp hb
    rw [h2] at hn2
    obtain rfl : n = n2 := by injection hn2
    rw [URLQueue.add_true_eq norm q u1 n d1 h1 ha] at hc2
    simp at hc2

/-- The parsed form of `http://a.com/b/#f`: a trailing path slash and
no query string. -/
def urlNoQueryW : URLRec :=
  { scheme := "http".toList, host := "a.com".toList,
    path := "/b/".toList, query := [], hash := "#f".toList }

/-- Witness for C8 (amended): without a query the two normalizations
agree concretely; a concrete parse failure refuses admission leaving
the frontier unchanged; and a concrete pair of identically-normalizing
URLs is admitted at most once. -/
theorem normalize_amended_witness :
    normalizeParsed urlNoQueryW = specNormalizeParsed urlNoQueryW
    ∧ URLQueue.add (fun _ => none) (URLQueue.init 5) "::bad::" 0 =
        (URLQueue.init 5, false)
    ∧ ¬((URLQueue.add (fun _ => some "http://a.com/x") (URLQueue.init 5)
          "http://a.com/x/" 0).2 = true ∧
        (URLQueue.add (fun _ => some "http://a.com/x")
          (URLQueue.add (fun _ => some "http://a.com/x") (URLQueue.init 5)
            "http://a.com/x/" 0).1 "http://a.com/x" 1).2 = true) :=
  ⟨(normalize_amended urlNoQueryW (fun _ => none) (URLQueue.init 5)
      "a" "b" 0 0 "n").1 (by decide) (by decide),
   (normalize_amended urlNoQueryW (fun _ => none) (URLQueue.init 5)
      "::bad::" "b" 0 0 "n").2.1 rfl,
   (normalize_amended urlNoQueryW (fun _ => some "http://a.com/x")
      (URLQueue.init 5) "http://a.com/x/" "http://a.com/x" 0 1
      "http://a.com/x").2.2 rfl rfl⟩

/-- Modelled from the spec: the CSV row the claim describes — every
string field (url, title, timestamp) quoted, with internal double
quotes doubled. -/
def specCsvRow (p : PageData) : List String :=
  ["\"" ++ escapeQuotes p.url ++ "\"",
   toString p.depth,
   "\"" ++ escapeQuotes p.title ++ "\"",
   toString p.statusCode,
   toString p.loadTime,
   toString p.links.length,
   toString p.images.length,
   "\"" ++ escapeQuotes p.timestamp ++ "\""]

/-- C9 counterexample: for a concrete page the produced row differs
from the claim's row — the `timestamp` field is emitted unquoted (and
`url` is quoted without doubling its quotes), so "every string field is
quoted with internal quotes doubled" fails. -/
theorem csv_row_cex : csvRow samplePage ≠ specCsvRow samplePage := by
  decide

/-- Modelled from the amended claim: url quoted as-is (internal quotes
not doubled), title quoted with quotes doubled, timestamp unquoted. -/
def amendedCsvRow (p : PageData) : List String :=
  ["\"" ++ p.url ++ "\"",
   toString p.depth,
   "\"" ++ escapeQuotes p.title ++ "\"",
   toString p.statusCode,
   toString p.loadTime,
   toString p.links.length,
   toString p.images.length,
   p.timestamp]

/-- C9 amended: the CSV consists of the header row followed by exactly
one row per successful page in order, with the columns
url, depth, title, statusCode, loadTime, linksCount, imagesCount,
timestamp, where url and title are quoted, only title's internal double
quotes are doubled, and timestamp is unquoted. -/
theorem csv_output_amended (pages : List PageData) (p : PageData)
    (i : Nat) :
    csvRow p = amendedCsvRow p
    ∧ (csvLines pages).length = pages.length + 1
    ∧ (csvLines pages).get? 0 = some (String.intercalate "," csvHeaders)
    ∧ (csvLines pages).get? (i + 1) =
        (pages.get? i).map
          (fun p => String.intercalate "," (csvRow p)) := by
  refine ⟨rfl, by simp [csvLines], rfl, ?_⟩
  simp [csvLines, List.get?_map]

end Quest4
